import Mathlib

/-!
Verification of the typedef / generic-instantiation pipeline of cbindgen
(`src/bindgen/ir/typedef.rs`), shallowly embedded in Lean 4.

The `Typedef` item and its operations (`load`, `transfer_annotations`,
`is_generic`, `add_monomorphs`, `instantiate_monomorph`,
`add_dependencies`, `write`) are translated from the Rust source.
Collaborating components that live in other modules of the repository
(the `Type` tree, `Cfg`, `AnnotationSet`, the mangler, the `Monomorphs`
registry, the `Dependencies` accumulator and the `SourceWriter`) are
modelled from the specification, as documented on each definition.
-/

namespace CB

/-- Canonical name of a declaration.  Modelled from the spec: a `Path` is a
canonical dotted-less identifier; the Rust `Path` wraps a single `String`
and `Path::name` returns it. -/
abbrev Path := String

/-- Modelled from the spec: `Path::name`, the identifier carried by a path. -/
def Path.name (p : Path) : String := p

/-- Modelled from the spec: an `AnnotationSet` is free-form key/value
metadata attached to a declaration, with an emptiness test and a fresh
empty constructor (`AnnotationSet::new`). -/
abbrev AnnotationSet := List (String × String)

/-- Modelled from the spec: `AnnotationSet::new` produces the empty set. -/
def AnnotationSet.new : AnnotationSet := []

/-- Modelled from the spec: `Documentation` is the list of leading doc
comment lines of a declaration. -/
abbrev Documentation := List String

/-- Modelled from the spec: a conditional-compilation predicate (`Cfg`),
composed of boolean atoms, key/value atoms, disjunction, conjunction and
negation. -/
inductive Cfg where
  | boolean (name : String)
  | named (key value : String)
  | any (cfgs : List Cfg)
  | all (cfgs : List Cfg)
  | not (c : Cfg)
deriving Repr

mutual

/-- Structural boolean equality on `Cfg` (hand-rolled because the nested
`List Cfg` defeats automatic derivation). -/
def Cfg.beq : Cfg → Cfg → Bool
  | .boolean a, .boolean b => a == b
  | .named k v, .named k2 v2 => k == k2 && v == v2
  | .any a, .any b => Cfg.beqList a b
  | .all a, .all b => Cfg.beqList a b
  | .not a, .not b => Cfg.beq a b
  | _, _ => false

/-- Pointwise `Cfg.beq` on lists. -/
def Cfg.beqList : List Cfg → List Cfg → Bool
  | [], [] => true
  | a :: as, b :: bs => Cfg.beq a b && Cfg.beqList as bs
  | _, _ => false

end

mutual

theorem Cfg.eq_of_beqC : ∀ {a b : Cfg}, Cfg.beq a b = true → a = b
  | .boolean a, .boolean b, h => by
      simp only [Cfg.beq, beq_iff_eq] at h; simp [h]
  | .named k v, .named k2 v2, h => by
      simp only [Cfg.beq, Bool.and_eq_true, beq_iff_eq] at h
      simp [h.1, h.2]
  | .any a, .any b, h => by
      simp only [Cfg.beq] at h
      simp [Cfg.eqListC_of_beq h]
  | .all a, .all b, h => by
      simp only [Cfg.beq] at h
      simp [Cfg.eqListC_of_beq h]
  | .not a, .not b, h => by
      simp only [Cfg.beq] at h
      simp [Cfg.eq_of_beqC h]

theorem Cfg.eqListC_of_beq : ∀ {a b : List Cfg}, Cfg.beqList a b = true → a = b
  | [], [], _ => rfl
  | a :: as, b :: bs, h => by
      simp only [Cfg.beqList, Bool.and_eq_true] at h
      simp [Cfg.eq_of_beqC h.1, Cfg.eqListC_of_beq h.2]

end

mutual

theorem Cfg.beqC_refl : ∀ a : Cfg, Cfg.beq a a = true
  | .boolean a => by simp [Cfg.beq]
  | .named k v => by simp [Cfg.beq]
  | .any a => by simp [Cfg.beq, Cfg.beqListC_refl a]
  | .all a => by simp [Cfg.beq, Cfg.beqListC_refl a]
  | .not a => by simp [Cfg.beq, Cfg.beqC_refl a]

theorem Cfg.beqListC_refl : ∀ a : List Cfg, Cfg.beqList a a = true
  | [] => rfl
  | a :: as => by simp [Cfg.beqList, Cfg.beqC_refl a, Cfg.beqListC_refl as]

end

instance : DecidableEq Cfg := fun a b =>
  if h : Cfg.beq a b = true then .isTrue (Cfg.eq_of_beqC h)
  else .isFalse (fun he => h (he ▸ Cfg.beqC_refl a))

/-- Modelled from the spec: `Cfg::append` composes the enclosing module's
predicate with the declaration's own; when both are present the result is
their conjunction, when one is present the result is that one, and when
neither is present the declaration stays unconditional. -/
def Cfg.append (parent : Option Cfg) (child : Option Cfg) : Option Cfg :=
  match parent, child with
  | none, none => none
  | none, some c => some c
  | some p, none => some p
  | some p, some c => some (.all [p, c])

mutual

/-- Truth value of a `Cfg` predicate under an environment assigning truth
to boolean atoms (`env n none`) and key/value atoms (`env k (some v)`). -/
def Cfg.eval (env : String → Option String → Bool) : Cfg → Bool
  | .boolean n => env n none
  | .named k v => env k (some v)
  | .any cs => Cfg.evalAny env cs
  | .all cs => Cfg.evalAll env cs
  | .not c => !(Cfg.eval env c)

/-- Disjunction of the truth values of a list of predicates. -/
def Cfg.evalAny (env : String → Option String → Bool) : List Cfg → Bool
  | [] => false
  | c :: cs => Cfg.eval env c || Cfg.evalAny env cs

/-- Conjunction of the truth values of a list of predicates. -/
def Cfg.evalAll (env : String → Option String → Bool) : List Cfg → Bool
  | [] => true
  | c :: cs => Cfg.eval env c && Cfg.evalAll env cs

end

/-- Truth value of an optional predicate: absence means unconditional,
hence true. -/
def evalOptCfg (env : String → Option String → Bool) : Option Cfg → Bool
  | none => true
  | some c => Cfg.eval env c

/-- Modelled from the spec: the recursive `Type` expression tree — leaves
are the zero-size unit type, primitives, or generic-parameter placeholders
(path references with no generic arguments whose name matches a parameter);
interior nodes are pointers, path references with generic arguments,
arrays and function pointers. -/
inductive Ty where
  | unit
  | primitive (name : String)
  | ptr (t : Ty)
  | path (p : Path) (generics : List Ty)
  | array (t : Ty) (len : Nat)
  | funPtr (ret : Ty) (args : List Ty)
deriving Repr

mutual

/-- Structural boolean equality on `Ty` (hand-rolled because the nested
`List Ty` defeats automatic derivation). -/
def Ty.beq : Ty → Ty → Bool
  | .unit, .unit => true
  | .primitive a, .primitive b => a == b
  | .ptr a, .ptr b => Ty.beq a b
  | .path p a, .path q b => p == q && Ty.beqList a b
  | .array a m, .array b n => Ty.beq a b && m == n
  | .funPtr r a, .funPtr s b => Ty.beq r s && Ty.beqList a b
  | _, _ => false

/-- Pointwise `Ty.beq` on lists. -/
def Ty.beqList : List Ty → List Ty → Bool
  | [], [] => true
  | a :: as, b :: bs => Ty.beq a b && Ty.beqList as bs
  | _, _ => false

end

mutual

theorem Ty.eq_of_beqT : ∀ {a b : Ty}, Ty.beq a b = true → a = b
  | .unit, .unit, _ => rfl
  | .primitive a, .primitive b, h => by
      simp only [Ty.beq, beq_iff_eq] at h; simp [h]
  | .ptr a, .ptr b, h => by
      simp only [Ty.beq] at h
      simp [Ty.eq_of_beqT h]
  | .path p a, .path q b, h => by
      simp only [Ty.beq, Bool.and_eq_true, beq_iff_eq] at h
      simp [h.1, Ty.eqListT_of_beq h.2]
  | .array a m, .array b n, h => by
      simp only [Ty.beq, Bool.and_eq_true, beq_iff_eq] at h
      simp [Ty.eq_of_beqT h.1, h.2]
  | .funPtr r a, .funPtr s b, h => by
      simp only [Ty.beq, Bool.and_eq_true] at h
      simp [Ty.eq_of_beqT h.1, Ty.eqListT_of_beq h.2]

theorem Ty.eqListT_of_beq : ∀ {a b : List Ty}, Ty.beqList a b = true → a = b
  | [], [], _ => rfl
  | a :: as, b :: bs, h => by
      simp only [Ty.beqList, Bool.and_eq_true] at h
      simp [Ty.eq_of_beqT h.1, Ty.eqListT_of_beq h.2]

end

mutual

theorem Ty.beqT_refl : ∀ a : Ty, Ty.beq a a = true
  | .unit => rfl
  | .primitive a => by simp [Ty.beq]
  | .ptr a => by simp [Ty.beq, Ty.beqT_refl a]
  | .path p a => by simp [Ty.beq, Ty.beqListT_refl a]
  | .array a m => by simp [Ty.beq, Ty.beqT_refl a]
  | .funPtr r a => by simp [Ty.beq, Ty.beqT_refl r, Ty.beqListT_refl a]

theorem Ty.beqListT_refl : ∀ a : List Ty, Ty.beqList a a = true
  | [] => rfl
  | a :: as => by simp [Ty.beqList, Ty.beqT_refl a, Ty.beqListT_refl as]

end

instance : DecidableEq Ty := fun a b =>
  if h : Ty.beq a b = true then .isTrue (Ty.eq_of_beqT h)
  else .isFalse (fun he => h (he ▸ Ty.beqT_refl a))

/-- Modelled from the spec: `Type::get_root_path` — the outermost named
type referenced by a type expression: pointers are peeled, a path
reference returns its path, and primitives, arrays, function pointers and
the unit type have no root path. -/
def Ty.get_root_path : Ty → Option Path
  | .ptr t => t.get_root_path
  | .path p _ => some p
  | _ => none

/-- Modelled from the spec: a zero-size type, which a C-family target
cannot alias; in this model exactly the unit type. -/
def Ty.isZeroSize : Ty → Bool
  | .unit => true
  | _ => false

mutual

/-- Modelled from the spec: `Type::specialize` substitutes
generic-parameter placeholders throughout a type tree.  A path reference
whose path matches a mapped parameter is replaced by the paired concrete
type; every other node recurses structurally. -/
def Ty.specialize (m : List (String × Ty)) : Ty → Ty
  | .unit => .unit
  | .primitive n => .primitive n
  | .ptr t => .ptr (Ty.specialize m t)
  | .path p gs =>
      match m.find? (fun x => x.1 == p) with
      | some pair => pair.2
      | none => .path p (Ty.specializeList m gs)
  | .array t n => .array (Ty.specialize m t) n
  | .funPtr r as => .funPtr (Ty.specialize m r) (Ty.specializeList m as)

/-- `Ty.specialize` mapped over a list of types. -/
def Ty.specializeList (m : List (String × Ty)) : List Ty → List Ty
  | [] => []
  | t :: ts => Ty.specialize m t :: Ty.specializeList m ts

end

mutual

/-- The paths mentioned anywhere in a type expression, in traversal
order (possibly with repeats); this is the spec-level reading of "the set
of Paths its payload type mentions". -/
def Ty.mentionedPaths : Ty → List Path
  | .unit => []
  | .primitive _ => []
  | .ptr t => Ty.mentionedPaths t
  | .path p gs => Ty.mentionedPathsList gs ++ [p]
  | .array t _ => Ty.mentionedPaths t
  | .funPtr r as => Ty.mentionedPaths r ++ Ty.mentionedPathsList as

/-- `Ty.mentionedPaths` over a list of types. -/
def Ty.mentionedPathsList : List Ty → List Path
  | [] => []
  | t :: ts => Ty.mentionedPaths t ++ Ty.mentionedPathsList ts

end

mutual

/-- Modelled from the spec: the literal rendering of a type expression in
the target dialect (exact formatting is out of scope; only that the body
text is a function of the type matters here). -/
def renderTy : Ty → String
  | .unit => "void"
  | .primitive n => n
  | .ptr t => renderTy t ++ "*"
  | .path p gs => if gs.isEmpty then p else p ++ "<" ++ renderTyList gs ++ ">"
  | .array t n => renderTy t ++ "[" ++ toString n ++ "]"
  | .funPtr r as => renderTy r ++ "(*)(" ++ renderTyList as ++ ")"

/-- Comma-separated rendering of a list of types. -/
def renderTyList : List Ty → String
  | [] => ""
  | [t] => renderTy t
  | t :: ts => renderTy t ++ ", " ++ renderTyList ts

end

/-- Modelled from the spec: `GenericParams`, the ordered generic parameter
names of a declaration; length 0 means the declaration is concrete. -/
abbrev GenericParams := List String

/-- A type alias that is represented as a C typedef
(struct `Typedef` of `src/bindgen/ir/typedef.rs`). -/
structure Typedef where
  path : Path
  export_name : String
  generic_params : GenericParams
  aliased : Ty
  cfg : Option Cfg
  annotations : AnnotationSet
  documentation : Documentation
deriving DecidableEq, Repr

/-- `Typedef::new`: the export name is initialized from the path's name. -/
def Typedef.new (path : Path) (generic_params : GenericParams) (aliased : Ty)
    (cfg : Option Cfg) (annotations : AnnotationSet)
    (documentation : Documentation) : Typedef :=
  { path := path
    export_name := Path.name path
    generic_params := generic_params
    aliased := aliased
    cfg := cfg
    annotations := annotations
    documentation := documentation }

/-- `Typedef::is_generic`: true iff `generic_params.len() > 0`. -/
def Typedef.is_generic (td : Typedef) : Bool :=
  td.generic_params.length > 0

/-- The annotation-transfer accumulator, the `HashMap<Path, AnnotationSet>`
threaded through `transfer_annotations`, modelled as an association list. -/
abbrev AnnMap := List (Path × AnnotationSet)

/-- Key-membership test of the accumulator (`HashMap::contains_key`). -/
def AnnMap.containsKey (m : AnnMap) (p : Path) : Bool :=
  m.any (fun e => e.1 == p)

/-- Insertion into the accumulator (`HashMap::insert` on a fresh key). -/
def AnnMap.insert (m : AnnMap) (p : Path) (a : AnnotationSet) : AnnMap :=
  m ++ [(p, a)]

/-- `Typedef::transfer_annotations`.  The Rust method mutates `self` and
`out` and logs a warning in the conflict branch; here it returns the
updated typedef, the updated accumulator, and whether the conflict warning
was emitted. -/
def Typedef.transfer_annotations (td : Typedef) (out : AnnMap) :
    Typedef × AnnMap × Bool :=
  if td.annotations.isEmpty then (td, out, false)
  else
    match td.aliased.get_root_path with
    | some alias_path =>
        if AnnMap.containsKey out alias_path then
          (td, out, true)
        else
          ({ td with annotations := AnnotationSet.new },
           AnnMap.insert out alias_path td.annotations, false)
    | none => (td, out, false)

/-- Modelled from the spec: the mangler is a pure function from a path and
an ordered concrete argument list to a flattened identifier; the exact
encoding is an implementation choice, only determinism matters. -/
def mangleTy : Ty → String
  | .unit => "Unit"
  | .primitive n => n
  | .ptr t => "Ptr_" ++ mangleTy t
  | .path p gs => p ++ String.join ((Ty.mentionedPathsList gs).map (fun q => "_" ++ q))
  | .array t n => "Array_" ++ mangleTy t ++ "_" ++ toString n
  | .funPtr r as => "Fn_" ++ mangleTy r ++ String.join ((Ty.mentionedPathsList as).map (fun q => "_" ++ q))

/-- Modelled from the spec: `mangle::mangle_path`, flattening a path and
its concrete generic arguments into one identifier. -/
def manglePath (p : Path) (generic_values : List Ty) : Path :=
  p ++ String.join (generic_values.map (fun t => "_" ++ mangleTy t))

/-- Modelled from the spec: the `Monomorphs` registry — a deduplicating,
insertion-ordered store keyed by the originating generic path and the
ordered concrete argument list. -/
abbrev Monomorphs := List ((Path × List Ty) × Typedef)

/-- Key-membership test of the registry. -/
def Monomorphs.containsKey (m : Monomorphs) (p : Path) (args : List Ty) : Bool :=
  m.any (fun e => decide (e.1 = (p, args)))

/-- The entry the registry holds under a key, if any. -/
def Monomorphs.lookupKey (m : Monomorphs) (p : Path) (args : List Ty) : Option Typedef :=
  (m.find? (fun e => decide (e.1 = (p, args)))).map (fun e => e.2)

/-- Modelled from the spec: `Monomorphs::insert_typedef` — records the
concrete instance under the key (generic path, concrete arguments),
short-circuiting when the key already exists (the existing entry is
reused, first insertion wins). -/
def Monomorphs.insertTypedef (generic : Typedef) (mono : Typedef)
    (args : List Ty) (m : Monomorphs) : Monomorphs :=
  if Monomorphs.containsKey m generic.path args then m
  else m ++ [((generic.path, args), mono)]

/-- Modelled from the spec: the `Library` is the run-scoped registry of
all loaded declarations, consulted read-only; only its typedef items
matter for this development. -/
abbrev Library := List Typedef

/-- Lookup of a declaration by path in the library. -/
def Library.findTypedef (lib : Library) (p : Path) : Option Typedef :=
  lib.find? (fun td => decide (td.path = p))

/-- The concrete alias built inside `Typedef::instantiate_monomorph`
(lines 174-188 of the source): mangled path, empty generic parameters, the
aliased type specialized under the zipped parameter/argument mapping, and
the original cfg, annotations and documentation. -/
def mkMonomorph (td : Typedef) (generic_values : List Ty) : Typedef :=
  Typedef.new (manglePath td.path generic_values) []
    (Ty.specialize (td.generic_params.zip generic_values) td.aliased)
    td.cfg td.annotations td.documentation

/-- Modelled from the spec: `Type::add_monomorphs` — a type expression
registers the instantiation of every generic declaration it applies to
concrete arguments, recursively (an instantiation may itself require
further instantiations).  The recursion is bounded by explicit fuel, as
the spec leaves unbounded self-referential generics an open question. -/
def tyAddMonomorphs : Nat → Library → Ty → Monomorphs → Monomorphs
  | 0, _, _, out => out
  | _ + 1, _, .unit, out => out
  | _ + 1, _, .primitive _, out => out
  | fuel + 1, lib, .ptr t, out => tyAddMonomorphs fuel lib t out
  | fuel + 1, lib, .array t _, out => tyAddMonomorphs fuel lib t out
  | fuel + 1, lib, .funPtr r as, out =>
      (r :: as).foldl (fun o a => tyAddMonomorphs fuel lib a o) out
  | fuel + 1, lib, .path p gs, out =>
      let out2 := gs.foldl (fun o a => tyAddMonomorphs fuel lib a o) out
      if gs.isEmpty then out2
      else
        match Library.findTypedef lib p with
        | none => out2
        | some td =>
            if td.is_generic && td.generic_params.length == gs.length
                && !(Monomorphs.containsKey out2 p gs) then
              let mono := mkMonomorph td gs
              Monomorphs.insertTypedef td mono gs
                (tyAddMonomorphs fuel lib mono.aliased out2)
            else out2

/-- `Typedef::add_monomorphs` (lines 101-109): a generic alias contributes
nothing; a concrete alias asks its aliased type to register what that type
needs. -/
def Typedef.add_monomorphs (td : Typedef) (fuel : Nat) (lib : Library)
    (out : Monomorphs) : Monomorphs :=
  if td.is_generic then out
  else tyAddMonomorphs fuel lib td.aliased out

/-- `Typedef::instantiate_monomorph` (lines 155-194).  The two `assert!`
contract checks become `Except.error`; on success the built monomorph
first registers its own further instantiations and is then inserted under
the key (original path, concrete arguments). -/
def Typedef.instantiate_monomorph (td : Typedef) (fuel : Nat)
    (generic_values : List Ty) (lib : Library) (out : Monomorphs) :
    Except String Monomorphs :=
  if td.generic_params.length = 0 then
    .error ("InvariantViolation: " ++ td.path ++ " is not generic")
  else if td.generic_params.length ≠ generic_values.length then
    .error ("InvariantViolation: " ++ td.path ++ " instantiated with wrong number of values")
  else
    let monomorph := mkMonomorph td generic_values
    let out1 := Typedef.add_monomorphs monomorph fuel lib out
    .ok (Monomorphs.insertTypedef td monomorph generic_values out1)

/-- Modelled from the spec: the `Dependencies` accumulator is an ordered
set of paths; adding a path already present changes nothing. -/
def insertDep (out : List Path) (p : Path) : List Path :=
  if p ∈ out then out else out ++ [p]

mutual

/-- Modelled from the spec:
`Type::add_dependencies_ignoring_generics` — walk the type tree and record
every referenced path, explicitly skipping the declaration's own generic
parameters (placeholders are not real dependencies); for a path reference
its generic arguments are processed first, then the path itself. -/
def Ty.addDeps (gp : GenericParams) : Ty → List Path → List Path
  | .unit, out => out
  | .primitive _, out => out
  | .ptr t, out => Ty.addDeps gp t out
  | .path p gs, out =>
      let out2 := Ty.addDepsList gp gs out
      if p ∈ gp then out2 else insertDep out2 p
  | .array t _, out => Ty.addDeps gp t out
  | .funPtr r as, out => Ty.addDepsList gp as (Ty.addDeps gp r out)

/-- `Ty.addDeps` folded over a list of types. -/
def Ty.addDepsList (gp : GenericParams) : List Ty → List Path → List Path
  | [], out => out
  | t :: ts, out => Ty.addDepsList gp ts (Ty.addDeps gp t out)

end

/-- `Typedef::add_dependencies` (lines 150-153): the aliased type
contributes its referenced paths, ignoring the typedef's own generic
parameters. -/
def Typedef.add_dependencies (td : Typedef) (out : List Path) : List Path :=
  Ty.addDeps td.generic_params td.aliased out

/-- Modelled from the spec: the target dialect selector. -/
inductive Language where
  | c
  | cxx
deriving DecidableEq, Repr

/-- Modelled from the spec: the slice of the configuration this core
consumes — the target dialect selector. -/
structure Config where
  language : Language
deriving DecidableEq, Repr

/-- A token of emitted output, tagged by which sub-writer produced it. -/
inductive SourceTok where
  | condOpen (c : Cfg)
  | docLine (s : String)
  | text (s : String)
  | condClose (c : Cfg)
deriving DecidableEq, Repr

/-- Modelled from the spec: the `SourceWriter` byte sink, as the sequence
of tokens written so far. -/
structure SourceWriter where
  toks : List SourceTok
deriving DecidableEq, Repr

/-- Appending output to the writer. -/
def SourceWriter.put (w : SourceWriter) (ts : List SourceTok) : SourceWriter :=
  ⟨w.toks ++ ts⟩

/-- Modelled from the spec: `Condition::write_before` opens the guard
derived from the declaration's predicate; an absent predicate emits
nothing. -/
def conditionWriteBefore (cfg : Option Cfg) (w : SourceWriter) : SourceWriter :=
  match cfg with
  | some c => w.put [.condOpen c]
  | none => w

/-- Modelled from the spec: `Condition::write_after` closes the matching
guard; an absent predicate emits nothing. -/
def conditionWriteAfter (cfg : Option Cfg) (w : SourceWriter) : SourceWriter :=
  match cfg with
  | some c => w.put [.condClose c]
  | none => w

/-- Modelled from the spec: `Documentation::write` emits the doc comment
lines. -/
def documentationWrite (d : Documentation) (w : SourceWriter) : SourceWriter :=
  w.put (d.map .docLine)

/-- Modelled from the spec: `GenericParams::write` contributes an empty
preamble (generic declarations should not reach emission
post-monomorphization). -/
def genericParamsWrite (_ps : GenericParams) (w : SourceWriter) : SourceWriter :=
  w

/-- The statement body of a typedef in the selected dialect (lines
206-212): C style `typedef <type> <name>` or alias style
`using <name> = <type>`. -/
def typedefBody (config : Config) (td : Typedef) : List SourceTok :=
  if config.language = Language.c then
    [.text ("typedef " ++ renderTy td.aliased ++ " " ++ td.export_name)]
  else
    [.text ("using " ++ td.export_name ++ " = " ++ renderTy td.aliased)]

/-- `Source::write` for `Typedef` (lines 197-216), as sequential
state-passing on the writer: condition guard open, documentation, generic
preamble, dialect body, terminator, condition guard close. -/
def Typedef.write (config : Config) (td : Typedef) (w : SourceWriter) : SourceWriter :=
  let w1 := conditionWriteBefore td.cfg w
  let w2 := documentationWrite td.documentation w1
  let w3 := genericParamsWrite td.generic_params w2
  let w4 := w3.put (typedefBody config td)
  let w5 := w4.put [.text (";")]
  conditionWriteAfter td.cfg w5

/-- Modelled from the spec: the attribute payload the external loader
supplies for one declaration — an optional own predicate, the annotation
set, and the doc comment lines. -/
structure Attrs where
  cfg : Option Cfg
  annotations : AnnotationSet
  documentation : Documentation
deriving DecidableEq, Repr

/-- Modelled from the spec: `Cfg::load` reads the declaration's own
predicate out of its attributes. -/
def Cfg.load (a : Attrs) : Option Cfg := a.cfg

/-- Modelled from the spec: `AnnotationSet::load` parses the annotation
attributes (parse failures are out of scope of this model). -/
def AnnotationSet.load (a : Attrs) : Except String AnnotationSet := .ok a.annotations

/-- Modelled from the spec: `Documentation::load` collects the doc comment
lines. -/
def Documentation.load (a : Attrs) : Documentation := a.documentation

/-- Modelled from the spec: `syn::ItemType`, the parsed form of a type
alias declaration handed to `Typedef::load`. -/
structure ItemType where
  ident : String
  generics : GenericParams
  attrs : Attrs
  ty : Ty
deriving DecidableEq, Repr

/-- Modelled from the spec: `Type::load` turns the parsed type expression
into a `Type`, yielding `none` for a zero-size type and otherwise the
expression unchanged (structure-preserving). -/
def Ty.load (t : Ty) : Except String (Option Ty) :=
  .ok (if t.isZeroSize then none else some t)

/-- `Typedef::load` (lines 35-49): a zero-size aliased type is rejected
with a recoverable error; otherwise the typedef is built with the
conjunction of the module predicate and the declaration's own predicate,
and the loaded annotations and documentation. -/
def Typedef.load (item : ItemType) (mod_cfg : Option Cfg) : Except String Typedef :=
  match Ty.load item.ty with
  | .error e => .error e
  | .ok none => .error ("Cannot have a typedef of a zero sized type.")
  | .ok (some x) =>
      match AnnotationSet.load item.attrs with
      | .error e => .error e
      | .ok anns =>
          .ok (Typedef.new (Path.name item.ident) item.generics x
            (Cfg.append mod_cfg (Cfg.load item.attrs)) anns
            (Documentation.load item.attrs))

/-! Concrete instances used by counterexamples and witnesses. -/

/-- An alias with annotations whose aliased type has root path `Root`. -/
def exAliasTd : Typedef :=
  { path := ("AliasA")
    export_name := ("AliasA")
    generic_params := []
    aliased := .ptr (.path ("Root") [])
    cfg := none
    annotations := [(("k"), ("v"))]
    documentation := [] }

/-- An accumulator that already holds an entry for `Root`. -/
def exAnnMap : AnnMap := [(("Root"), [(("prev"), ("w"))])]

/-- An annotated alias of a primitive type (no root path). -/
def exPrimTd : Typedef :=
  { path := ("AliasP")
    export_name := ("AliasP")
    generic_params := []
    aliased := .primitive ("uint8_t")
    cfg := none
    annotations := [(("k"), ("v"))]
    documentation := [] }

theorem annotations_isEmpty_false {td : Typedef} (h : td.annotations ≠ []) :
    td.annotations.isEmpty = false := by
  cases he : td.annotations with
  | nil => exact absurd he h
  | cons a as => rfl

/-- Claim C1, counterexample: in the conflict branch (non-empty
annotations, root path already claimed in the accumulator) the current
alias's `AnnotationSet` is NOT cleared — `transfer_annotations` returns
with the typedef's annotations intact, contrary to the claim that they are
cleared without transferring. -/
theorem transfer_annotations_conflict_counterexample :
    exAliasTd.annotations ≠ [] ∧
    exAliasTd.aliased.get_root_path = some ("Root") ∧
    AnnMap.containsKey exAnnMap ("Root") = true ∧
    (Typedef.transfer_annotations exAliasTd exAnnMap).1.annotations
      = exAliasTd.annotations ∧
    (Typedef.transfer_annotations exAliasTd exAnnMap).1.annotations
      ≠ AnnotationSet.new := by
  decide

/-- Claim C1 (amended): for every typedef with a non-empty `AnnotationSet`
whose aliased type's root path is already a key of the accumulator,
`transfer_annotations` leaves the accumulator entry unchanged (first
writer wins), leaves the current typedef's own `AnnotationSet` unchanged
(it is retained, not cleared and not transferred), and emits the conflict
diagnostic. -/
theorem transfer_annotations_conflict_first_writer_wins
    (td : Typedef) (out : AnnMap) (p : Path)
    (h1 : td.annotations ≠ [])
    (h2 : td.aliased.get_root_path = some p)
    (h3 : AnnMap.containsKey out p = true) :
    Typedef.transfer_annotations td out = (td, out, true) := by
  simp only [Typedef.transfer_annotations, annotations_isEmpty_false h1,
    Bool.false_eq_true, if_false, h2, h3, if_true]

/-- Witness for the amended claim C1 at a concrete conflicting input. -/
theorem transfer_annotations_conflict_first_writer_wins_witness :
    Typedef.transfer_annotations exAliasTd exAnnMap = (exAliasTd, exAnnMap, true) :=
  transfer_annotations_conflict_first_writer_wins exAliasTd exAnnMap ("Root")
    (by decide) (by decide) (by decide)

/-- Claim C7: a typedef with a non-empty `AnnotationSet` whose root path
is not yet claimed moves (copies then clears) its set into the accumulator
under the root path; a typedef with an empty `AnnotationSet` is a no-op on
both the typedef and the accumulator. -/
theorem transfer_annotations_moves_set :
    (∀ (td : Typedef) (out : AnnMap) (p : Path),
      td.annotations ≠ [] →
      td.aliased.get_root_path = some p →
      AnnMap.containsKey out p = false →
      Typedef.transfer_annotations td out =
        ({ td with annotations := AnnotationSet.new },
         AnnMap.insert out p td.annotations, false)) ∧
    (∀ (td : Typedef) (out : AnnMap),
      td.annotations = [] →
      Typedef.transfer_annotations td out = (td, out, false)) := by
  constructor
  · intro td out p h1 h2 h3
    simp only [Typedef.transfer_annotations, annotations_isEmpty_false h1,
      Bool.false_eq_true, if_false, h2, h3, Bool.false_eq_true, if_false]
  · intro td out h1
    simp only [Typedef.transfer_annotations, h1, List.isEmpty_nil, if_true]

/-- Witness for claim C7 at concrete inputs: a fresh transfer moves the
set, and an annotation-free typedef changes nothing. -/
theorem transfer_annotations_moves_set_witness :
    Typedef.transfer_annotations exAliasTd [] =
      ({ exAliasTd with annotations := AnnotationSet.new },
       AnnMap.insert [] ("Root") exAliasTd.annotations, false) ∧
    Typedef.transfer_annotations
      { exAliasTd with annotations := [] } exAnnMap =
      ({ exAliasTd with annotations := [] }, exAnnMap, false) :=
  ⟨transfer_annotations_moves_set.1 exAliasTd [] ("Root")
      (by decide) (by decide) (by decide),
   transfer_annotations_moves_set.2 { exAliasTd with annotations := [] }
      exAnnMap (by decide)⟩

/-- Claim C10: a typedef with a non-empty `AnnotationSet` whose aliased
type has no root path (a primitive or other non-path type) is left
entirely unchanged by `transfer_annotations`: the typedef keeps its
annotations, the accumulator is unmodified, and no diagnostic is
emitted. -/
theorem transfer_annotations_no_root_noop (td : Typedef) (out : AnnMap)
    (h1 : td.annotations ≠ []) (h2 : td.aliased.get_root_path = none) :
    Typedef.transfer_annotations td out = (td, out, false) := by
  simp only [Typedef.transfer_annotations, annotations_isEmpty_false h1,
    Bool.false_eq_true, if_false, h2]

/-- Witness for claim C10 at a concrete primitive-aliasing typedef. -/
theorem transfer_annotations_no_root_noop_witness :
    Typedef.transfer_annotations exPrimTd exAnnMap = (exPrimTd, exAnnMap, false) :=
  transfer_annotations_no_root_noop exPrimTd exAnnMap (by decide) (by decide)

/-- A generic typedef with one parameter, used as concrete input. -/
def exGenTd : Typedef :=
  { path := ("Wrapper")
    export_name := ("Wrapper")
    generic_params := [("T")]
    aliased := .ptr (.path ("T") [])
    cfg := some (.boolean ("feat"))
    annotations := [(("k"), ("v"))]
    documentation := [("doc line")] }

/-- A second generic typedef sharing `exGenTd`'s path but differing in
every other field. -/
def exGenTd2 : Typedef :=
  { path := ("Wrapper")
    export_name := ("Other")
    generic_params := [("U")]
    aliased := .path ("U") []
    cfg := none
    annotations := []
    documentation := [] }

theorem find?_eq_none_of_containsKey_false {m : Monomorphs} {p : Path}
    {args : List Ty} (h : Monomorphs.containsKey m p args = false) :
    m.find? (fun e => decide (e.1 = (p, args))) = none := by
  rw [List.find?_eq_none]
  intro x hx hpx
  have : m.any (fun e => decide (e.1 = (p, args))) = true :=
    List.any_eq_true.mpr ⟨x, hx, hpx⟩
  rw [Monomorphs.containsKey] at h
  rw [h] at this
  exact Bool.false_ne_true this

theorem lookupKey_insertTypedef_self (g mono : Typedef) (args : List Ty)
    (m : Monomorphs) (h : Monomorphs.containsKey m g.path args = false) :
    Monomorphs.lookupKey (Monomorphs.insertTypedef g mono args m) g.path args
      = some mono := by
  unfold Monomorphs.insertTypedef
  rw [h]
  simp only [Bool.false_eq_true, if_false, Monomorphs.lookupKey,
    List.find?_append, find?_eq_none_of_containsKey_false h,
    Option.none_orElse, List.find?_cons, decide_eq_true_eq]
  simp

theorem instantiate_monomorph_ok_eq (td : Typedef) (fuel : Nat)
    (args : List Ty) (lib : Library) (out : Monomorphs)
    (hg : td.generic_params ≠ [])
    (hl : td.generic_params.length = args.length) :
    Typedef.instantiate_monomorph td fuel args lib out =
      .ok (Monomorphs.insertTypedef td (mkMonomorph td args) args
        (Typedef.add_monomorphs (mkMonomorph td args) fuel lib out)) := by
  have h0 : td.generic_params.length ≠ 0 := by
    intro h
    exact hg (List.length_eq_zero.mp h)
  unfold Typedef.instantiate_monomorph
  rw [if_neg h0, if_neg (by omega)]

/-- Claim C3: calling `instantiate_monomorph` on a typedef with no generic
parameters, or with an argument list whose length differs from the generic
parameter list, always fails with the `InvariantViolation` contract error;
no registry is produced at all (so no monomorph is ever registered, and
the argument list is never truncated or padded). -/
theorem instantiate_monomorph_arity_contract (td : Typedef) (fuel : Nat)
    (args : List Ty) (lib : Library) (out : Monomorphs)
    (h : td.generic_params.length = 0 ∨
         td.generic_params.length ≠ args.length) :
    ∃ e, Typedef.instantiate_monomorph td fuel args lib out = Except.error e := by
  unfold Typedef.instantiate_monomorph
  rcases h with h | h
  · rw [if_pos h]
    exact ⟨_, rfl⟩
  · by_cases h0 : td.generic_params.length = 0
    · rw [if_pos h0]
      exact ⟨_, rfl⟩
    · rw [if_neg h0, if_pos h]
      exact ⟨_, rfl⟩

/-- Witness for claim C3: a one-parameter generic typedef instantiated
with no arguments, and a non-generic typedef instantiated with one
argument, both fail. -/
theorem instantiate_monomorph_arity_contract_witness :
    (∃ e, Typedef.instantiate_monomorph exGenTd 5 [] [] [] = Except.error e) ∧
    (∃ e, Typedef.instantiate_monomorph exPrimTd 5 [Ty.primitive ("u8")] [] []
      = Except.error e) :=
  ⟨instantiate_monomorph_arity_contract exGenTd 5 [] [] [] (Or.inr (by decide)),
   instantiate_monomorph_arity_contract exPrimTd 5 [Ty.primitive ("u8")] [] []
     (Or.inl (by decide))⟩

/-- Claim C4: for a generic typedef and a matching-length concrete
argument list (and a key not claimed by the recursive pre-registration
step), `instantiate_monomorph` succeeds and the registry maps the key
(original path, argument list) to a monomorph whose path is the mangled
path, whose generic parameters are empty (so it is not generic), whose
aliased type is the original aliased type with each parameter substituted
by its paired argument, and whose cfg, annotations and documentation equal
the original's. -/
theorem instantiate_monomorph_builds_and_registers (td : Typedef)
    (fuel : Nat) (args : List Ty) (lib : Library) (out : Monomorphs)
    (hg : td.generic_params ≠ [])
    (hl : td.generic_params.length = args.length)
    (hk : Monomorphs.containsKey
        (Typedef.add_monomorphs (mkMonomorph td args) fuel lib out)
        td.path args = false) :
    ∃ out2 mono,
      Typedef.instantiate_monomorph td fuel args lib out = .ok out2 ∧
      Monomorphs.lookupKey out2 td.path args = some mono ∧
      mono.path = manglePath td.path args ∧
      mono.export_name = Path.name (manglePath td.path args) ∧
      mono.generic_params = [] ∧
      mono.is_generic = false ∧
      mono.aliased = Ty.specialize (td.generic_params.zip args) td.aliased ∧
      mono.cfg = td.cfg ∧
      mono.annotations = td.annotations ∧
      mono.documentation = td.documentation :=
  ⟨_, mkMonomorph td args,
   instantiate_monomorph_ok_eq td fuel args lib out hg hl,
   lookupKey_insertTypedef_self td (mkMonomorph td args) args _ hk,
   rfl, rfl, rfl, rfl, rfl, rfl, rfl, rfl⟩

/-- Witness for claim C4 at a concrete generic typedef and argument. -/
theorem instantiate_monomorph_builds_and_registers_witness :
    ∃ out2 mono,
      Typedef.instantiate_monomorph exGenTd 3 [Ty.primitive ("u8")] [] [] = .ok out2 ∧
      Monomorphs.lookupKey out2 exGenTd.path [Ty.primitive ("u8")] = some mono ∧
      mono.path = manglePath exGenTd.path [Ty.primitive ("u8")] ∧
      mono.export_name = Path.name (manglePath exGenTd.path [Ty.primitive ("u8")]) ∧
      mono.generic_params = [] ∧
      mono.is_generic = false ∧
      mono.aliased = Ty.specialize (exGenTd.generic_params.zip [Ty.primitive ("u8")])
        exGenTd.aliased ∧
      mono.cfg = exGenTd.cfg ∧
      mono.annotations = exGenTd.annotations ∧
      mono.documentation = exGenTd.documentation :=
  instantiate_monomorph_builds_and_registers exGenTd 3 [Ty.primitive ("u8")] [] []
    (by decide) (by decide) (by decide)

/-- Claim C6: the mangled name of the registered monomorph is a pure
function of the original path and the ordered argument list — two
invocations on typedefs sharing a path, with the same arguments but on
arbitrary (and different) libraries, registries and fuel, register
monomorphs with the identical mangled path. -/
theorem mangled_path_pure (td1 td2 : Typedef) (args : List Ty)
    (fuel1 fuel2 : Nat) (lib1 lib2 : Library) (out1 out2 : Monomorphs)
    (hp : td1.path = td2.path)
    (hg1 : td1.generic_params ≠ [])
    (hl1 : td1.generic_params.length = args.length)
    (hg2 : td2.generic_params ≠ [])
    (hl2 : td2.generic_params.length = args.length)
    (hk1 : Monomorphs.containsKey
        (Typedef.add_monomorphs (mkMonomorph td1 args) fuel1 lib1 out1)
        td1.path args = false)
    (hk2 : Monomorphs.containsKey
        (Typedef.add_monomorphs (mkMonomorph td2 args) fuel2 lib2 out2)
        td2.path args = false) :
    ∃ o1 o2 m1 m2,
      Typedef.instantiate_monomorph td1 fuel1 args lib1 out1 = .ok o1 ∧
      Typedef.instantiate_monomorph td2 fuel2 args lib2 out2 = .ok o2 ∧
      Monomorphs.lookupKey o1 td1.path args = some m1 ∧
      Monomorphs.lookupKey o2 td2.path args = some m2 ∧
      m1.path = m2.path ∧
      m1.path = manglePath td1.path args :=
  ⟨_, _, mkMonomorph td1 args, mkMonomorph td2 args,
   instantiate_monomorph_ok_eq td1 fuel1 args lib1 out1 hg1 hl1,
   instantiate_monomorph_ok_eq td2 fuel2 args lib2 out2 hg2 hl2,
   lookupKey_insertTypedef_self td1 (mkMonomorph td1 args) args _ hk1,
   lookupKey_insertTypedef_self td2 (mkMonomorph td2 args) args _ hk2,
   by simp [mkMonomorph, Typedef.new, hp], rfl⟩

/-- Witness for claim C6: two different typedefs sharing a path, on
different registries and fuel, mangle to the same name. -/
theorem mangled_path_pure_witness :
    ∃ o1 o2 m1 m2,
      Typedef.instantiate_monomorph exGenTd 3 [Ty.primitive ("u8")] [] [] = .ok o1 ∧
      Typedef.instantiate_monomorph exGenTd2 7 [Ty.primitive ("u8")] [exPrimTd]
        [((("X"), []), exPrimTd)] = .ok o2 ∧
      Monomorphs.lookupKey o1 exGenTd.path [Ty.primitive ("u8")] = some m1 ∧
      Monomorphs.lookupKey o2 exGenTd2.path [Ty.primitive ("u8")] = some m2 ∧
      m1.path = m2.path ∧
      m1.path = manglePath exGenTd.path [Ty.primitive ("u8")] :=
  mangled_path_pure exGenTd exGenTd2 [Ty.primitive ("u8")] 3 7 [] [exPrimTd]
    [] [((("X"), []), exPrimTd)] (by decide) (by decide) (by decide)
    (by decide) (by decide) (by decide) (by decide)

theorem typedef_load_eq_of_zero (item : ItemType) (mod_cfg : Option Cfg)
    (h : item.ty.isZeroSize = true) :
    Typedef.load item mod_cfg =
      .error ("Cannot have a typedef of a zero sized type.") := by
  simp [Typedef.load, Ty.load, h]

theorem typedef_load_eq_of_not_zero (item : ItemType) (mod_cfg : Option Cfg)
    (h : item.ty.isZeroSize = false) :
    Typedef.load item mod_cfg =
      .ok (Typedef.new (Path.name item.ident) item.generics item.ty
        (Cfg.append mod_cfg (Cfg.load item.attrs)) item.attrs.annotations
        item.attrs.documentation) := by
  simp [Typedef.load, Ty.load, AnnotationSet.load, Documentation.load, h]

/-- A parsed alias declaration with a non-zero-size aliased type. -/
def exItem : ItemType :=
  { ident := ("Foo")
    generics := []
    attrs :=
      { cfg := some (.boolean ("a"))
        annotations := [(("k"), ("v"))]
        documentation := [("d")] }
    ty := .ptr (.path ("Bar") []) }

/-- The same declaration aliasing the zero-size unit type. -/
def exZeroItem : ItemType := { exItem with ty := .unit }

/-- The typedef `Typedef::load` builds from `exItem` under no module
predicate. -/
def exLoadedTd : Typedef :=
  Typedef.new (Path.name exItem.ident) exItem.generics exItem.ty
    (Cfg.append none (Cfg.load exItem.attrs)) exItem.attrs.annotations
    exItem.attrs.documentation

/-- Claim C5: `Typedef::load` fails exactly when the aliased type
expression denotes a zero-size type, and on every other input succeeds
with the aliased type (and identity, generics, annotations and
documentation) preserved with no loss. -/
theorem typedef_load_zero_size_iff (item : ItemType) (mod_cfg : Option Cfg) :
    ((∃ e, Typedef.load item mod_cfg = Except.error e) ↔
      item.ty.isZeroSize = true) ∧
    (∀ td, Typedef.load item mod_cfg = .ok td →
      td.aliased = item.ty ∧
      td.path = Path.name item.ident ∧
      td.generic_params = item.generics ∧
      td.annotations = item.attrs.annotations ∧
      td.documentation = item.attrs.documentation) := by
  cases hz : item.ty.isZeroSize with
  | true =>
      refine ⟨⟨fun _ => rfl, fun _ => ⟨_, typedef_load_eq_of_zero item mod_cfg hz⟩⟩, ?_⟩
      intro td htd
      rw [typedef_load_eq_of_zero item mod_cfg hz] at htd
      exact absurd htd (by simp)
  | false =>
      constructor
      · constructor
        · rintro ⟨e, he⟩
          rw [typedef_load_eq_of_not_zero item mod_cfg hz] at he
          exact absurd he (by simp)
        · intro hh
          exact absurd hh Bool.false_ne_true
      · intro td htd
        rw [typedef_load_eq_of_not_zero item mod_cfg hz] at htd
        have := Except.ok.inj htd
        subst this
        exact ⟨rfl, rfl, rfl, rfl, rfl⟩

/-- Witness for claim C5: the zero-size alias is rejected, the pointer
alias loads losslessly. -/
theorem typedef_load_zero_size_iff_witness :
    (∃ e, Typedef.load exZeroItem none = Except.error e) ∧
    (exLoadedTd.aliased = exItem.ty ∧
     exLoadedTd.path = Path.name exItem.ident ∧
     exLoadedTd.generic_params = exItem.generics ∧
     exLoadedTd.annotations = exItem.attrs.annotations ∧
     exLoadedTd.documentation = exItem.attrs.documentation) :=
  ⟨(typedef_load_zero_size_iff exZeroItem none).1.mpr (by decide),
   (typedef_load_zero_size_iff exItem none).2 exLoadedTd (by rfl)⟩

/-- Claim C8: a loaded typedef's stored predicate is `Cfg::append` of the
module predicate and the declaration's own predicate — semantically their
conjunction under every environment; when only one is present the result
is exactly that one, and when neither is present the declaration is
unconditional. -/
theorem typedef_load_cfg_conjunction (item : ItemType) (mod_cfg : Option Cfg)
    (td : Typedef) (h : Typedef.load item mod_cfg = .ok td) :
    td.cfg = Cfg.append mod_cfg (Cfg.load item.attrs) ∧
    (∀ env, evalOptCfg env td.cfg =
      (evalOptCfg env mod_cfg && evalOptCfg env (Cfg.load item.attrs))) ∧
    (mod_cfg = none → td.cfg = Cfg.load item.attrs) ∧
    (Cfg.load item.attrs = none → td.cfg = mod_cfg) ∧
    (mod_cfg = none → Cfg.load item.attrs = none → td.cfg = none) := by
  have hz : item.ty.isZeroSize = false := by
    cases hz : item.ty.isZeroSize
    · rfl
    · rw [typedef_load_eq_of_zero item mod_cfg hz] at h
      exact absurd h (by simp)
  rw [typedef_load_eq_of_not_zero item mod_cfg hz] at h
  have hcfg : td.cfg = Cfg.append mod_cfg (Cfg.load item.attrs) := by
    rw [← Except.ok.inj h]
    rfl
  refine ⟨hcfg, ?_, ?_, ?_, ?_⟩
  · intro env
    rw [hcfg]
    cases mod_cfg with
    | none => cases Cfg.load item.attrs <;>
        simp [Cfg.append, evalOptCfg]
    | some pc =>
        cases Cfg.load item.attrs <;>
          simp [Cfg.append, evalOptCfg, Cfg.eval, Cfg.evalAll]
  · intro hm
    rw [hcfg, hm]
    cases Cfg.load item.attrs <;> rfl
  · intro hc
    rw [hcfg, hc]
    cases mod_cfg <;> rfl
  · intro hm hc
    rw [hcfg, hm, hc]
    rfl

/-- The typedef loaded from `exItem` under a module predicate. -/
def exLoadedTd8 : Typedef :=
  Typedef.new (Path.name exItem.ident) exItem.generics exItem.ty
    (Cfg.append (some (.named ("os") ("linux"))) (Cfg.load exItem.attrs))
    exItem.attrs.annotations exItem.attrs.documentation

/-- A concrete truth environment for predicates. -/
def exEnv : String → Option String → Bool := fun n _ => n == ("a")

/-- Witness for claim C8 at a concrete declaration under a module
predicate, with the conjunction evaluated in a concrete environment. -/
theorem typedef_load_cfg_conjunction_witness :
    exLoadedTd8.cfg =
      Cfg.append (some (.named ("os") ("linux"))) (Cfg.load exItem.attrs) ∧
    evalOptCfg exEnv exLoadedTd8.cfg =
      (evalOptCfg exEnv (some (.named ("os") ("linux"))) &&
       evalOptCfg exEnv (Cfg.load exItem.attrs)) :=
  ⟨(typedef_load_cfg_conjunction exItem (some (.named ("os") ("linux")))
      exLoadedTd8 (by rfl)).1,
   (typedef_load_cfg_conjunction exItem (some (.named ("os") ("linux")))
      exLoadedTd8 (by rfl)).2.1 exEnv⟩

/-- A typedef with both a doc comment and a conditional predicate. -/
def exWriteTd : Typedef :=
  { path := ("A")
    export_name := ("A")
    generic_params := []
    aliased := .primitive ("u8")
    cfg := some (.boolean ("feat"))
    annotations := []
    documentation := [("doc")] }

/-- Claim C2, counterexample: the emitted text does NOT put the leading
documentation comment before the opening conditional guard — on a typedef
with both a doc comment and a predicate, the output differs from the
claimed doc-first layout (the guard is opened first). -/
theorem typedef_write_doc_first_counterexample :
    (Typedef.write ⟨Language.c⟩ exWriteTd ⟨[]⟩).toks ≠
      (documentationWrite exWriteTd.documentation ⟨[]⟩).toks
        ++ (conditionWriteBefore exWriteTd.cfg ⟨[]⟩).toks
        ++ typedefBody ⟨Language.c⟩ exWriteTd
        ++ [SourceTok.text (";")]
        ++ (conditionWriteAfter exWriteTd.cfg ⟨[]⟩).toks := by
  decide

/-- Claim C2 (amended): the emitted text preserves, in order: the opening
conditional guard first, then the leading documentation comment, then the
(empty) generic preamble, then the statement body, a single terminator
`;`, and finally the closing conditional guard. -/
theorem typedef_write_emission_order (config : Config) (td : Typedef)
    (w : SourceWriter) :
    (Typedef.write config td w).toks =
      w.toks
        ++ (conditionWriteBefore td.cfg ⟨[]⟩).toks
        ++ (documentationWrite td.documentation ⟨[]⟩).toks
        ++ (genericParamsWrite td.generic_params ⟨[]⟩).toks
        ++ typedefBody config td
        ++ [SourceTok.text (";")]
        ++ (conditionWriteAfter td.cfg ⟨[]⟩).toks := by
  cases hc : td.cfg <;>
    simp [Typedef.write, conditionWriteBefore, conditionWriteAfter,
      documentationWrite, genericParamsWrite, SourceWriter.put, hc]

theorem mem_insertDep {out : List Path} {p q : Path} :
    p ∈ insertDep out q ↔ p ∈ out ∨ p = q := by
  unfold insertDep
  by_cases h : q ∈ out
  · rw [if_pos h]
    constructor
    · exact Or.inl
    · rintro (hp | rfl)
      · exact hp
      · exact h
  · rw [if_neg h]
    simp [List.mem_append]

mutual

theorem mem_addDeps (gp : GenericParams) (p : Path) :
    ∀ (t : Ty) (out : List Path),
      p ∈ Ty.addDeps gp t out ↔
        p ∈ out ∨ (p ∈ Ty.mentionedPaths t ∧ p ∉ gp)
  | .unit, out => by simp [Ty.addDeps, Ty.mentionedPaths]
  | .primitive n, out => by simp [Ty.addDeps, Ty.mentionedPaths]
  | .ptr t, out => by
      simpa only [Ty.addDeps, Ty.mentionedPaths] using mem_addDeps gp p t out
  | .path q gs, out => by
      simp only [Ty.addDeps, Ty.mentionedPaths]
      by_cases hq : q ∈ gp
      · rw [if_pos hq, mem_addDepsList gp p gs out]
        simp only [List.mem_append, List.mem_singleton]
        constructor
        · rintro (ho | ⟨hm, hn⟩)
          · exact Or.inl ho
          · exact Or.inr ⟨Or.inl hm, hn⟩
        · rintro (ho | ⟨hm | rfl, hn⟩)
          · exact Or.inl ho
          · exact Or.inr ⟨hm, hn⟩
          · exact absurd hq hn
      · rw [if_neg hq, mem_insertDep, mem_addDepsList gp p gs out]
        simp only [List.mem_append, List.mem_singleton]
        constructor
        · rintro ((ho | ⟨hm, hn⟩) | rfl)
          · exact Or.inl ho
          · exact Or.inr ⟨Or.inl hm, hn⟩
          · exact Or.inr ⟨Or.inr rfl, hq⟩
        · rintro (ho | ⟨hm | rfl, hn⟩)
          · exact Or.inl (Or.inl ho)
          · exact Or.inl (Or.inr ⟨hm, hn⟩)
          · exact Or.inr rfl
  | .array t n, out => by
      simpa only [Ty.addDeps, Ty.mentionedPaths] using mem_addDeps gp p t out
  | .funPtr r as, out => by
      simp only [Ty.addDeps, Ty.mentionedPaths]
      rw [mem_addDepsList gp p as (Ty.addDeps gp r out), mem_addDeps gp p r out]
      simp only [List.mem_append]
      tauto

theorem mem_addDepsList (gp : GenericParams) (p : Path) :
    ∀ (ts : List Ty) (out : List Path),
      p ∈ Ty.addDepsList gp ts out ↔
        p ∈ out ∨ (p ∈ Ty.mentionedPathsList ts ∧ p ∉ gp)
  | [], out => by simp [Ty.addDepsList, Ty.mentionedPathsList]
  | t :: ts, out => by
      simp only [Ty.addDepsList, Ty.mentionedPathsList]
      rw [mem_addDepsList gp p ts (Ty.addDeps gp t out), mem_addDeps gp p t out]
      simp only [List.mem_append]
      tauto

end

/-- Claim C9: `add_dependencies` contributes exactly the paths mentioned
by the typedef's aliased type minus its own generic parameters — a path is
in the produced accumulator iff it was already there or it is mentioned by
the aliased type and is not one of the typedef's generic parameters (so no
generic-parameter placeholder is ever contributed). -/
theorem add_dependencies_exactly_mentioned (td : Typedef) (out : List Path)
    (p : Path) :
    p ∈ Typedef.add_dependencies td out ↔
      p ∈ out ∨ (p ∈ Ty.mentionedPaths td.aliased ∧ p ∉ td.generic_params) :=
  mem_addDeps td.generic_params p td.aliased out

end CB
